import Mathlib

/-!
Shallow embedding of the audio engine of the ESD_Walkman firmware.

Sources embedded here:
* `src/stm32_walkman/src/audio/pwm_audio.c` — PWM back-end: quantization
  (`audio_output_sample`), playback flags, the TIM2 sample-clock interrupt.
* `src/stm32_walkman/src/audio/player.c` — foreground playback controller.
* `src/stm32_walkman/src/audio/codec.c` — WM8994 codec control channel.
* `src/unnamed/part_009` — bare-metal I2C driver (`i2c_wait_event`,
  `i2c_write`).

Machine integers are modelled as `ℕ`/`ℤ` with the masks and clamps of the C
code made explicit.  The C `float` arithmetic in `audio_output_sample`
(`(float)vol / 100.0f` and `sample * volume_scale`) is modelled exactly over
`ℚ` by `fl32`, round-to-nearest with ties-to-even onto a 24-bit significand;
on every value those expressions produce (magnitudes in `[2⁻¹⁰⁰, 2¹⁶]` or 0)
this coincides with IEEE-754 binary32, since no overflow, underflow or
subnormal can occur there.
-/

namespace Walkman

/-- Round a rational to the nearest integer, ties to even — the IEEE-754
default tie-breaking rule applied by the C float arithmetic. -/
def rhe (q : ℚ) : ℤ :=
  if q - ⌊q⌋ < 1/2 then ⌊q⌋
  else if 1/2 < q - ⌊q⌋ then ⌊q⌋ + 1
  else if 2 ∣ ⌊q⌋ then ⌊q⌋ else ⌊q⌋ + 1

/-- Round a positive rational to the nearest value with a 24-bit binary
significand: scale into the binade `[2²³, 2²⁴)`, round to an integer with
ties to even, scale back. -/
def fl32pos (q : ℚ) : ℚ :=
  (rhe (q / 2 ^ (Int.log 2 q - 23)) : ℚ) * 2 ^ (Int.log 2 q - 23)

/-- Rounding of a rational to the nearest binary32 float (ties to even),
valid away from overflow and subnormal territory. -/
def fl32 (q : ℚ) : ℚ :=
  if q = 0 then 0 else if q < 0 then -fl32pos (-q) else fl32pos q

/-- C cast from `float` to a signed integer type: truncation toward zero. -/
def qtrunc (q : ℚ) : ℤ := if q < 0 then ⌈q⌉ else ⌊q⌋

/-- PWM_PERIOD from pwm_audio.c: the pulse period has 21 duty steps. -/
def PWM_PERIOD : ℕ := 21

/-- get_volume_scale from pwm_audio.c: `(float)vol / 100.0f`. -/
def get_volume_scale (vol : ℕ) : ℚ := fl32 ((vol : ℚ) / 100)

/-- Volume-scaling step of `audio_output_sample`:
`(int32_t)(sample * volume_scale)`. -/
def scaled_of (sample : ℤ) (vol : ℕ) : ℤ :=
  qtrunc (fl32 ((sample : ℚ) * get_volume_scale vol))

/-- Clamp of the scaled sample to the 16-bit range in
`audio_output_sample`. -/
def clamp16 (x : ℤ) : ℤ :=
  if x > 32767 then 32767 else if x < -32768 then -32768 else x

/-- Integer quantization step of `audio_output_sample`:
`pwm_duty = (scaled + 32768) * PWM_PERIOD / 65536` followed by the clamp
`if (pwm_duty > PWM_PERIOD - 1) pwm_duty = PWM_PERIOD - 1` (the `< 0`
branch of the C code is dead: the operand is non-negative). -/
def duty_of_clamped (t : ℤ) : ℕ :=
  if (t + 32768).toNat * PWM_PERIOD / 65536 > PWM_PERIOD - 1 then PWM_PERIOD - 1
  else (t + 32768).toNat * PWM_PERIOD / 65536

/-- Duty value written to the TIM2 compare register by
`audio_output_sample sample` at volume `vol`. -/
def audio_duty (sample : ℤ) (vol : ℕ) : ℕ :=
  duty_of_clamped (clamp16 (scaled_of sample vol))

/-- Mutable state of the PWM back-end (`audio_state` in pwm_audio.c plus the
TIM2 CCR1 compare register, which holds the last duty written). -/
structure AudioState where
  buffer : List ℤ
  buffer_size : ℕ
  sample_index : ℕ
  is_playing : Bool
  is_paused : Bool
  volume : ℕ
  duty : ℕ
deriving DecidableEq, Repr

/-- State after `pwm_audio_init`: the static initializer of `audio_state`
(volume 70, nothing armed) and `pwm_timer_init`, which programs the compare
register to `10` (50% duty). -/
def initAudioState : AudioState :=
  { buffer := [], buffer_size := 0, sample_index := 0,
    is_playing := false, is_paused := false, volume := 70, duty := 10 }

/-- audio_play from pwm_audio.c.  The C function also rejects a NULL buffer
pointer, which has no counterpart for a list; `size` is the caller-supplied
sample count. -/
def audio_play (buffer : List ℤ) (size : ℕ) (s : AudioState) : AudioState :=
  if size = 0 then s
  else
    { s with buffer := buffer, buffer_size := size, sample_index := 0,
             is_playing := true, is_paused := false }

/-- audio_stop from pwm_audio.c: clears the flags, resets the cursor and
writes the 50% duty (silence) to the compare register. -/
def audio_stop (s : AudioState) : AudioState :=
  { s with is_playing := false, is_paused := false, sample_index := 0,
           duty := PWM_PERIOD / 2 }

/-- audio_pause from pwm_audio.c. -/
def audio_pause (s : AudioState) : AudioState :=
  if s.is_playing then { s with is_paused := true } else s

/-- audio_resume from pwm_audio.c. -/
def audio_resume (s : AudioState) : AudioState :=
  if s.is_paused then { s with is_paused := false } else s

/-- audio_set_volume from pwm_audio.c: clamps its `uint8_t` argument above
100 and always succeeds (the C function returns `void`). -/
def audio_set_volume (volume : ℕ) (s : AudioState) : AudioState :=
  if volume > 100 then { s with volume := 100 } else { s with volume := volume }

/-- audio_get_position from pwm_audio.c. -/
def audio_get_position (s : AudioState) : ℕ := s.sample_index

/-- TIM2_IRQHandler from pwm_audio.c: one sample-clock tick.  When armed and
not paused it either consumes `buffer[sample_index]` (incrementing the
cursor and writing the quantized duty) or, once the cursor has reached the
buffer size, clears `is_playing` — and nothing else. -/
def tim2_irq (s : AudioState) : AudioState :=
  if s.is_playing && !s.is_paused then
    if s.sample_index < s.buffer_size then
      { s with sample_index := s.sample_index + 1,
               duty := audio_duty (s.buffer.getD s.sample_index 0) s.volume }
    else { s with is_playing := false }
  else s

/-- Iterated sample-clock ticks. -/
def ticks : ℕ → AudioState → AudioState
  | 0, s => s
  | k + 1, s => ticks k (tim2_irq s)

/-- Duty-register writes performed by one tick (empty when the tick writes
nothing). -/
def tickWrites (s : AudioState) : List ℕ :=
  if s.is_playing && !s.is_paused then
    if s.sample_index < s.buffer_size then
      [audio_duty (s.buffer.getD s.sample_index 0) s.volume]
    else []
  else []

/-- Concatenated duty-register writes of `k` successive ticks. -/
def ticksWrites : ℕ → AudioState → List ℕ
  | 0, _ => []
  | k + 1, s => tickWrites s ++ ticksWrites k (tim2_irq s)

/-- Abstract playback state of the spec, read off the two flags. -/
inductive PlaybackState where
  | Stopped
  | Playing
  | Paused
deriving DecidableEq, Repr

/-- PlaybackState of the PWM back-end: stopped unless `is_playing`, paused
when `is_playing` with `is_paused` set. -/
def playbackState (s : AudioState) : PlaybackState :=
  if !s.is_playing then .Stopped
  else if s.is_paused then .Paused
  else .Playing

/-- Status codes returned by the foreground controller in player.c. -/
inductive PlayerStatus where
  | PLAYER_OK
  | PLAYER_ERROR
  | PLAYER_ERROR_NO_FILE
deriving DecidableEq, Repr

/-- Fields of `player_state` (player.c) relevant to the playback state
machine, together with the playback cursor `audio_pos` (a byte offset). -/
structure PlayerState where
  is_playing : Bool
  is_paused : Bool
  volume : ℕ
  audio_pos : ℕ
deriving DecidableEq, Repr

/-- Static initializer of `player_state` in player.c. -/
def initPlayerState : PlayerState :=
  { is_playing := false, is_paused := false, volume := 70, audio_pos := 0 }

/-- player_pause from player.c: rejected with PLAYER_ERROR unless
`is_playing`; otherwise sets `is_paused`.  Returns the status and the
resulting state. -/
def player_pause (s : PlayerState) : PlayerStatus × PlayerState :=
  if !s.is_playing then (.PLAYER_ERROR, s)
  else (.PLAYER_OK, { s with is_paused := true })

/-- player_resume from player.c: rejected with PLAYER_ERROR unless
`is_paused`; otherwise clears `is_paused`. -/
def player_resume (s : PlayerState) : PlayerStatus × PlayerState :=
  if !s.is_paused then (.PLAYER_ERROR, s)
  else (.PLAYER_OK, { s with is_paused := false })

/-- player_set_volume from player.c: rejects an argument above 100 with
PLAYER_ERROR, otherwise stores it. -/
def player_set_volume (volume : ℕ) (s : PlayerState) :
    PlayerStatus × PlayerState :=
  if volume > 100 then (.PLAYER_ERROR, s)
  else (.PLAYER_OK, { s with volume := volume })

/-- player_get_position from player.c: `audio_pos / 4 / 44100`, elapsed
whole seconds (4 bytes per stereo frame at 44100 Hz). -/
def player_get_position (s : PlayerState) : ℕ := s.audio_pos / 4 / 44100

/-- WM8994 left output-volume register address (codec.c). -/
def WM8994_LEFT_OUTPUT_VOLUME : ℕ := 0x1C

/-- WM8994 right output-volume register address (codec.c). -/
def WM8994_RIGHT_OUTPUT_VOLUME : ℕ := 0x1D

/-- codec_set_volume from codec.c, as the clamped stored volume together
with the list of `(register, value)` writes it issues: `0xC0 ∣ dac_vol`
(unmute bits plus gain step) to both output-volume registers. -/
def codec_set_volume (volume : ℕ) : ℕ × List (ℕ × ℕ) :=
  let v := if volume > 100 then 100 else volume
  let dac_vol := v * 127 / 100
  (v, [(WM8994_LEFT_OUTPUT_VOLUME, 0xC0 ||| dac_vol),
       (WM8994_RIGHT_OUTPUT_VOLUME, 0xC0 ||| dac_vol)])

/-- SB flag bit of the I2C SR1 status register. -/
def I2C_SR1_SB : ℕ := 0x01

/-- ADDR flag bit of the I2C SR1 status register. -/
def I2C_SR1_ADDR : ℕ := 0x02

/-- BTF flag bit of the I2C SR1 status register. -/
def I2C_SR1_BTF : ℕ := 0x04

/-- TXE flag bit of the I2C SR1 status register. -/
def I2C_SR1_TXE : ℕ := 0x80

/-- Iteration bound of the spin loop in `i2c_wait_event` (part_009):
`I2C_TIMEOUT_MS * 1000`. -/
def I2C_TIMEOUT_MAX : ℕ := 1000000

/-- Spin loop of `i2c_wait_event` over a trace `sr1` of volatile SR1 reads
(`sr1 n` is the value returned by the n-th read of the call).  Each
iteration reads once and exits when the flag is seen or the fuel — the
remaining `timeout < timeout_max` budget plus the final check — runs out.
Returns the position of the first unread trace element. -/
def i2c_wait_loop (sr1 : ℕ → ℕ) (flag : ℕ) : ℕ → ℕ → ℕ
  | pos, 0 => pos
  | pos, fuel + 1 =>
    if sr1 pos &&& flag ≠ 0 then pos + 1
    else i2c_wait_loop sr1 flag (pos + 1) fuel

/-- i2c_wait_event from part_009: spin (at most `I2C_TIMEOUT_MAX + 1`
condition reads), then one further SR1 read decides the returned status
(1 = event seen, 0 = timeout).  Returns the status and the next unread
trace position. -/
def i2c_wait_event (sr1 : ℕ → ℕ) (flag pos : ℕ) : ℕ × ℕ :=
  let p := i2c_wait_loop sr1 flag pos (I2C_TIMEOUT_MAX + 1)
  ((if sr1 p &&& flag ≠ 0 then 1 else 0), p + 1)

/-- i2c_start from part_009: requests START, then waits for SB.  The wait
result is discarded; only the read cursor advances. -/
def i2c_start (sr1 : ℕ → ℕ) (pos : ℕ) : ℕ :=
  (i2c_wait_event sr1 I2C_SR1_SB pos).2

/-- i2c_send_address from part_009: writes DR, waits for ADDR; the wait
result is discarded. -/
def i2c_send_address (sr1 : ℕ → ℕ) (pos : ℕ) : ℕ :=
  (i2c_wait_event sr1 I2C_SR1_ADDR pos).2

/-- i2c_write_byte from part_009: waits for TXE then writes DR; the wait
result is discarded. -/
def i2c_write_byte (sr1 : ℕ → ℕ) (pos : ℕ) : ℕ :=
  (i2c_wait_event sr1 I2C_SR1_TXE pos).2

/-- i2c_write from part_009: validates its arguments, runs START, address,
the data bytes and the BTF wait — discarding every wait status — and then
returns 0 unconditionally. -/
def i2c_write (sr1 : ℕ → ℕ) (bus : ℕ) (data : List ℕ) : ℤ :=
  if data = [] ∨ bus < 1 ∨ bus > 3 then -1
  else
    let p1 := i2c_start sr1 0
    let p2 := i2c_send_address sr1 p1
    let p3 := data.foldl (fun p _ => i2c_write_byte sr1 p) p2
    let _ := (i2c_wait_event sr1 I2C_SR1_BTF p3).2
    0

/-- Status codes of the codec control channel (codec.h). -/
inductive CodecStatus where
  | CODEC_OK
  | CODEC_ERROR
  | CODEC_TIMEOUT
deriving DecidableEq, Repr

/-- codec_write_register from codec.c: packs register address and value
into three bytes and maps a non-zero `i2c_write` result to CODEC_TIMEOUT. -/
def codec_write_register (sr1 : ℕ → ℕ) (addr value : ℕ) : CodecStatus :=
  if i2c_write sr1 1 [addr &&& 0xFF, (value >>> 8) &&& 0xFF, value &&& 0xFF] ≠ 0
  then .CODEC_TIMEOUT
  else .CODEC_OK

/-! Properties of the rounding model. -/

lemma rhe_ge (q : ℚ) : ⌊q⌋ ≤ rhe q := by
  unfold rhe
  split_ifs <;> omega

lemma rhe_le (q : ℚ) : rhe q ≤ ⌊q⌋ + 1 := by
  unfold rhe
  split_ifs <;> omega

lemma rhe_mono {a b : ℚ} (hab : a ≤ b) : rhe a ≤ rhe b := by
  have hff : ⌊a⌋ ≤ ⌊b⌋ := Int.floor_le_floor hab
  rcases lt_or_eq_of_le hff with hf | hf
  · have h1 := rhe_le a
    have h2 := rhe_ge b
    omega
  · have hQ : ((⌊a⌋ : ℚ)) = ((⌊b⌋ : ℚ)) := by exact_mod_cast hf
    have hfa : (⌊a⌋ : ℚ) ≤ a := Int.floor_le a
    have hfb : (⌊b⌋ : ℚ) ≤ b := Int.floor_le b
    unfold rhe
    split_ifs <;> first
      | omega
      | (exfalso; linarith)

lemma fl32pos_nonneg {q : ℚ} (hq : 0 < q) : 0 ≤ fl32pos q := by
  unfold fl32pos
  have h2 : (0 : ℚ) < 2 ^ (Int.log 2 q - 23) := zpow_pos (by norm_num) _
  have hm : (0 : ℚ) ≤ q / 2 ^ (Int.log 2 q - 23) := le_of_lt (div_pos hq h2)
  have hfl : (0 : ℤ) ≤ ⌊q / 2 ^ (Int.log 2 q - 23)⌋ := Int.floor_nonneg.mpr hm
  have hr : (0 : ℤ) ≤ rhe (q / 2 ^ (Int.log 2 q - 23)) := le_trans hfl (rhe_ge _)
  have : (0 : ℚ) ≤ (rhe (q / 2 ^ (Int.log 2 q - 23)) : ℚ) := by exact_mod_cast hr
  exact mul_nonneg this (le_of_lt h2)

lemma cast_pow23 : (((2 ^ 23 : ℤ)) : ℚ) = (2 : ℚ) ^ (23 : ℤ) := by
  norm_num

lemma cast_pow24 : (((2 ^ 24 : ℤ)) : ℚ) = (2 : ℚ) ^ (24 : ℤ) := by
  norm_num

lemma fl32pos_lb {q : ℚ} (hq : 0 < q) :
    (2 : ℚ) ^ (Int.log 2 q) ≤ fl32pos q := by
  unfold fl32pos
  have h2 : (0 : ℚ) < 2 ^ (Int.log 2 q - 23) := zpow_pos (by norm_num) _
  have hsplit : (2 : ℚ) ^ (Int.log 2 q) =
      2 ^ (Int.log 2 q - 23) * 2 ^ (23 : ℤ) := by
    rw [← zpow_add₀ (by norm_num : (2 : ℚ) ≠ 0)]
    congr 1
    omega
  have hqlb : (2 : ℚ) ^ (Int.log 2 q) ≤ q :=
    Int.zpow_log_le_self (by norm_num) hq
  have hm : ((2 : ℚ) ^ (23 : ℤ)) ≤ q / 2 ^ (Int.log 2 q - 23) := by
    rw [le_div_iff₀ h2, mul_comm]
    calc 2 ^ (Int.log 2 q - 23) * 2 ^ (23 : ℤ)
        = (2 : ℚ) ^ (Int.log 2 q) := hsplit.symm
      _ ≤ q := hqlb
  have hm23 : ((2 ^ 23 : ℤ) : ℚ) ≤ q / 2 ^ (Int.log 2 q - 23) := by
    rw [cast_pow23]
    exact hm
  have hfl : (2 ^ 23 : ℤ) ≤ ⌊q / 2 ^ (Int.log 2 q - 23)⌋ := Int.le_floor.mpr hm23
  have hr : (2 ^ 23 : ℤ) ≤ rhe (q / 2 ^ (Int.log 2 q - 23)) :=
    le_trans hfl (rhe_ge _)
  have hrQ : ((2 : ℚ) ^ (23 : ℤ)) ≤ (rhe (q / 2 ^ (Int.log 2 q - 23)) : ℚ) := by
    rw [← cast_pow23]
    exact Int.cast_le.mpr hr
  calc (2 : ℚ) ^ (Int.log 2 q)
      = 2 ^ (23 : ℤ) * 2 ^ (Int.log 2 q - 23) := by rw [mul_comm]; exact hsplit
    _ ≤ (rhe (q / 2 ^ (Int.log 2 q - 23)) : ℚ) * 2 ^ (Int.log 2 q - 23) :=
        mul_le_mul_of_nonneg_right hrQ (le_of_lt h2)

lemma fl32pos_ub {q : ℚ} (_hq : 0 < q) :
    fl32pos q ≤ (2 : ℚ) ^ (Int.log 2 q + 1) := by
  unfold fl32pos
  have h2 : (0 : ℚ) < 2 ^ (Int.log 2 q - 23) := zpow_pos (by norm_num) _
  have hsplit : (2 : ℚ) ^ (Int.log 2 q + 1) =
      2 ^ (Int.log 2 q - 23) * 2 ^ (24 : ℤ) := by
    rw [← zpow_add₀ (by norm_num : (2 : ℚ) ≠ 0)]
    congr 1
    omega
  have hqub : q < (2 : ℚ) ^ (Int.log 2 q + 1) :=
    Int.lt_zpow_succ_log_self (by norm_num) q
  have hm : q / 2 ^ (Int.log 2 q - 23) < ((2 : ℚ) ^ (24 : ℤ)) := by
    rw [div_lt_iff₀ h2, mul_comm]
    calc q < (2 : ℚ) ^ (Int.log 2 q + 1) := hqub
      _ = 2 ^ (Int.log 2 q - 23) * 2 ^ (24 : ℤ) := hsplit
  have hm24 : q / 2 ^ (Int.log 2 q - 23) < ((2 ^ 24 : ℤ) : ℚ) := by
    rw [cast_pow24]
    exact hm
  have hfl : ⌊q / 2 ^ (Int.log 2 q - 23)⌋ < 2 ^ 24 := Int.floor_lt.mpr hm24
  have hr : rhe (q / 2 ^ (Int.log 2 q - 23)) ≤ 2 ^ 24 := by
    have := rhe_le (q / 2 ^ (Int.log 2 q - 23))
    omega
  have hrQ : (rhe (q / 2 ^ (Int.log 2 q - 23)) : ℚ) ≤ ((2 : ℚ) ^ (24 : ℤ)) := by
    rw [← cast_pow24]
    exact Int.cast_le.mpr hr
  calc (rhe (q / 2 ^ (Int.log 2 q - 23)) : ℚ) * 2 ^ (Int.log 2 q - 23)
      ≤ (2 : ℚ) ^ (24 : ℤ) * 2 ^ (Int.log 2 q - 23) :=
        mul_le_mul_of_nonneg_right hrQ (le_of_lt h2)
    _ = (2 : ℚ) ^ (Int.log 2 q + 1) := by rw [mul_comm]; exact hsplit.symm

lemma fl32pos_mono {a b : ℚ} (ha : 0 < a) (hab : a ≤ b) :
    fl32pos a ≤ fl32pos b := by
  have hb : 0 < b := lt_of_lt_of_le ha hab
  have hlog : Int.log 2 a ≤ Int.log 2 b := Int.log_mono_right ha hab
  rcases eq_or_lt_of_le hlog with heq | hlt
  · unfold fl32pos
    rw [← heq]
    have h2 : (0 : ℚ) < 2 ^ (Int.log 2 a - 23) := zpow_pos (by norm_num) _
    have hdiv : a / 2 ^ (Int.log 2 a - 23) ≤ b / 2 ^ (Int.log 2 a - 23) :=
      (div_le_div_iff_of_pos_right h2).mpr hab
    have hr : rhe (a / 2 ^ (Int.log 2 a - 23)) ≤ rhe (b / 2 ^ (Int.log 2 a - 23)) :=
      rhe_mono hdiv
    have hrQ : (rhe (a / 2 ^ (Int.log 2 a - 23)) : ℚ) ≤
        (rhe (b / 2 ^ (Int.log 2 a - 23)) : ℚ) := by exact_mod_cast hr
    exact mul_le_mul_of_nonneg_right hrQ (le_of_lt h2)
  · calc fl32pos a ≤ (2 : ℚ) ^ (Int.log 2 a + 1) := fl32pos_ub ha
      _ ≤ (2 : ℚ) ^ (Int.log 2 b) := zpow_le_zpow_right₀ (by norm_num) (by omega)
      _ ≤ fl32pos b := fl32pos_lb hb

lemma fl32_zero : fl32 0 = 0 := by
  unfold fl32
  simp

lemma fl32_of_pos {q : ℚ} (hq : 0 < q) : fl32 q = fl32pos q := by
  unfold fl32
  rw [if_neg (by linarith), if_neg (by linarith)]

lemma fl32_of_neg {q : ℚ} (hq : q < 0) : fl32 q = -fl32pos (-q) := by
  unfold fl32
  rw [if_neg (by linarith), if_pos hq]

lemma fl32_nonneg {q : ℚ} (hq : 0 ≤ q) : 0 ≤ fl32 q := by
  rcases eq_or_lt_of_le hq with h | h
  · rw [← h, fl32_zero]
  · rw [fl32_of_pos h]
    exact fl32pos_nonneg h

lemma fl32_mono {a b : ℚ} (hab : a ≤ b) : fl32 a ≤ fl32 b := by
  rcases lt_trichotomy a 0 with ha | ha | ha
  · rcases lt_trichotomy b 0 with hb | hb | hb
    · rw [fl32_of_neg ha, fl32_of_neg hb]
      have hmono := fl32pos_mono (by linarith : (0 : ℚ) < -b)
        (by linarith : -b ≤ -a)
      linarith
    · rw [fl32_of_neg ha, hb, fl32_zero]
      have := fl32pos_nonneg (by linarith : (0 : ℚ) < -a)
      linarith
    · rw [fl32_of_neg ha, fl32_of_pos hb]
      have h1 := fl32pos_nonneg (by linarith : (0 : ℚ) < -a)
      have h2 := fl32pos_nonneg hb
      linarith
  · rw [ha, fl32_zero]
    exact fl32_nonneg (ha ▸ hab)
  · have hb : 0 < b := lt_of_lt_of_le ha hab
    rw [fl32_of_pos ha, fl32_of_pos hb]
    exact fl32pos_mono ha hab

lemma qtrunc_mono {a b : ℚ} (hab : a ≤ b) : qtrunc a ≤ qtrunc b := by
  unfold qtrunc
  split_ifs with ha hb hb
  · exact Int.ceil_le_ceil hab
  · calc ⌈a⌉ ≤ 0 := Int.ceil_le.mpr (by exact_mod_cast le_of_lt ha)
      _ ≤ ⌊b⌋ := Int.floor_nonneg.mpr (not_lt.mp hb)
  · exact absurd (lt_of_le_of_lt hab hb) ha
  · exact Int.floor_le_floor hab

lemma clamp16_mono {a b : ℤ} (hab : a ≤ b) : clamp16 a ≤ clamp16 b := by
  unfold clamp16
  split_ifs <;> omega

lemma clamp16_lb (x : ℤ) : -32768 ≤ clamp16 x := by
  unfold clamp16
  split_ifs <;> omega

lemma clamp16_ub (x : ℤ) : clamp16 x ≤ 32767 := by
  unfold clamp16
  split_ifs <;> omega

lemma duty_of_clamped_le (t : ℤ) : duty_of_clamped t ≤ PWM_PERIOD - 1 := by
  unfold duty_of_clamped
  split_ifs with h
  · exact le_refl _
  · exact le_of_not_lt h

lemma duty_of_clamped_mono {s t : ℤ} (hst : s ≤ t) :
    duty_of_clamped s ≤ duty_of_clamped t := by
  unfold duty_of_clamped
  have h1 : (s + 32768).toNat ≤ (t + 32768).toNat := Int.toNat_le_toNat (by omega)
  have h2 : (s + 32768).toNat * PWM_PERIOD / 65536 ≤
      (t + 32768).toNat * PWM_PERIOD / 65536 :=
    Nat.div_le_div_right (Nat.mul_le_mul_right _ h1)
  split_ifs <;> omega

lemma audio_duty_mono {v : ℕ} {a b : ℤ} (hab : a ≤ b) :
    audio_duty a v ≤ audio_duty b v := by
  unfold audio_duty scaled_of
  have hscale : (0 : ℚ) ≤ get_volume_scale v := by
    unfold get_volume_scale
    exact fl32_nonneg (by positivity)
  have hmul : (a : ℚ) * get_volume_scale v ≤ (b : ℚ) * get_volume_scale v :=
    mul_le_mul_of_nonneg_right (by exact_mod_cast hab) hscale
  exact duty_of_clamped_mono (clamp16_mono (qtrunc_mono (fl32_mono hmul)))

lemma rhe_intCast (n : ℤ) : rhe ((n : ℚ)) = n := by
  unfold rhe
  rw [Int.floor_intCast, sub_self]
  norm_num

lemma fl32pos_intCast {n : ℤ} (h0 : 0 < n) (h24 : n < 2 ^ 24) :
    fl32pos ((n : ℚ)) = ((n : ℚ)) := by
  have h2 : ((2 : ℚ)) ≠ 0 := by norm_num
  have hnQ : (0 : ℚ) < (n : ℚ) := by exact_mod_cast h0
  have hn1 : (1 : ℚ) ≤ (n : ℚ) := by exact_mod_cast h0
  have hL23 : Int.log 2 ((n : ℚ)) ≤ 23 := by
    by_contra hc
    push_neg at hc
    have ha : (2 : ℚ) ^ (24 : ℤ) ≤ (2 : ℚ) ^ (Int.log 2 ((n : ℚ))) :=
      zpow_le_zpow_right₀ (by norm_num) (by omega)
    have hb : (2 : ℚ) ^ (Int.log 2 ((n : ℚ))) ≤ (n : ℚ) :=
      Int.zpow_log_le_self (by norm_num) hnQ
    have hcst : ((2 ^ 24 : ℤ) : ℚ) ≤ ((n : ℚ)) := by
      rw [cast_pow24]
      linarith
    have : (2 ^ 24 : ℤ) ≤ n := Int.cast_le.mp hcst
    omega
  have hq : ((n : ℚ)) / 2 ^ (Int.log 2 ((n : ℚ)) - 23) =
      ((n * 2 ^ (23 - Int.log 2 ((n : ℚ))).toNat : ℤ) : ℚ) := by
    rw [div_eq_iff (zpow_ne_zero _ h2)]
    push_cast
    rw [← zpow_natCast (2 : ℚ) (23 - Int.log 2 ((n : ℚ))).toNat,
      Int.toNat_of_nonneg (by omega), mul_assoc,
      ← zpow_add₀ h2]
    have hz : 23 - Int.log 2 ((n : ℚ)) + (Int.log 2 ((n : ℚ)) - 23) = 0 := by omega
    rw [hz, zpow_zero, mul_one]
  unfold fl32pos
  rw [hq, rhe_intCast]
  push_cast
  rw [← zpow_natCast (2 : ℚ) (23 - Int.log 2 ((n : ℚ))).toNat,
    Int.toNat_of_nonneg (by omega), mul_assoc, ← zpow_add₀ h2]
  have hz : 23 - Int.log 2 ((n : ℚ)) + (Int.log 2 ((n : ℚ)) - 23) = 0 := by omega
  rw [hz, zpow_zero, mul_one]

lemma fl32_intCast {n : ℤ} (h : n.natAbs < 2 ^ 24) : fl32 ((n : ℚ)) = ((n : ℚ)) := by
  rcases lt_trichotomy n 0 with hn | hn | hn
  · have hcast : ((n : ℚ)) < 0 := by exact_mod_cast hn
    rw [fl32_of_neg hcast]
    have hneg : (-(n : ℚ)) = (((-n : ℤ)) : ℚ) := by push_cast; ring
    rw [hneg, fl32pos_intCast (by omega) (by omega)]
    push_cast
    ring
  · rw [hn]
    push_cast
    exact fl32_zero
  · have hcast : (0 : ℚ) < ((n : ℚ)) := by exact_mod_cast hn
    rw [fl32_of_pos hcast]
    exact fl32pos_intCast hn (by omega)

lemma qtrunc_intCast (n : ℤ) : qtrunc ((n : ℚ)) = n := by
  unfold qtrunc
  split_ifs with h
  · exact Int.ceil_intCast n
  · exact Int.floor_intCast n

/-- Volume 100 scales by exactly 1.0: `(float)100 / 100.0f = 1.0f`. -/
lemma get_volume_scale_100 : get_volume_scale 100 = 1 := by
  unfold get_volume_scale
  have h : ((100 : ℕ) : ℚ) / 100 = (((1 : ℤ)) : ℚ) := by norm_num
  rw [h, fl32_intCast (by decide)]
  norm_num

/-- Duty written for the maximal sample at full volume. -/
lemma audio_duty_32767_100 : audio_duty 32767 100 = 20 := by
  unfold audio_duty scaled_of
  rw [get_volume_scale_100, mul_one]
  have h : ((32767 : ℤ) : ℚ) = (((32767 : ℤ)) : ℚ) := rfl
  rw [fl32_intCast (by decide), qtrunc_intCast]
  decide

/-- Sample 0 always writes the midpoint duty, at every volume. -/
lemma audio_duty_zero_sample (v : ℕ) : audio_duty 0 v = PWM_PERIOD / 2 := by
  unfold audio_duty scaled_of
  rw [Int.cast_zero, zero_mul, fl32_zero]
  have h : qtrunc 0 = 0 := by
    unfold qtrunc
    norm_num
  rw [h]
  decide

lemma audio_duty_zero_volume (s : ℤ) : audio_duty s 0 = PWM_PERIOD / 2 := by
  unfold audio_duty scaled_of get_volume_scale
  norm_num [fl32_zero, qtrunc, clamp16]
  decide

/-- C2.  Claim: for every sample s in [-32768, 32767] and every volume v in
[0, 100], the quantized duty written by the sample-output path lies in
[0, P-1] with P = 21 (never P); and for v = 0 the duty equals P/2 for every
s.  Confirmed against `audio_output_sample` (pwm_audio.c lines 167-186):
the division bound and the final clamp keep the duty at most 20, and volume
0 scales every sample to 0, which quantizes to the midpoint 10 = 21/2. -/
theorem audio_duty_range_and_silence (s : ℤ) (v : ℕ)
    (_hs1 : -32768 ≤ s) (_hs2 : s ≤ 32767) (_hv : v ≤ 100) :
    audio_duty s v ≤ PWM_PERIOD - 1 ∧
      (v = 0 → audio_duty s v = PWM_PERIOD / 2) := by
  refine ⟨duty_of_clamped_le _, ?_⟩
  intro hv0
  rw [hv0]
  exact audio_duty_zero_volume s

/-- Witness for C2 at s = -32768, v = 0. -/
theorem audio_duty_range_and_silence_witness :
    -32768 ≤ (-32768 : ℤ) ∧ (-32768 : ℤ) ≤ 32767 ∧ (0 : ℕ) ≤ 100 ∧
      (audio_duty (-32768) 0 ≤ PWM_PERIOD - 1 ∧
        ((0 : ℕ) = 0 → audio_duty (-32768) 0 = PWM_PERIOD / 2)) :=
  ⟨by decide, by decide, by decide,
    audio_duty_range_and_silence (-32768) 0 (by decide) (by decide) (by decide)⟩

/-- C3.  Claim: for every fixed volume v in [0, 100] and samples
a < b in [-32768, 32767], duty(a) ≤ duty(b).  Confirmed: the volume scale
`(float)v / 100.0f` is non-negative, float multiplication by a fixed
non-negative factor is monotone (rounding to nearest is monotone), the
int cast truncation, the 16-bit clamp and the integer quantization with its
final clamp are each monotone. -/
theorem audio_duty_monotone (v : ℕ) (a b : ℤ)
    (_hv : v ≤ 100) (_ha : -32768 ≤ a) (hab : a < b) (_hb : b ≤ 32767) :
    audio_duty a v ≤ audio_duty b v :=
  audio_duty_mono (le_of_lt hab)

/-- Witness for C3 at v = 50, a = -7, b = 9. -/
theorem audio_duty_monotone_witness :
    (50 : ℕ) ≤ 100 ∧ -32768 ≤ (-7 : ℤ) ∧ (-7 : ℤ) < 9 ∧ (9 : ℤ) ≤ 32767 ∧
      audio_duty (-7) 50 ≤ audio_duty 9 50 :=
  ⟨by decide, by decide, by decide, by decide,
    audio_duty_monotone 50 (-7) 9 (by decide) (by decide) (by decide) (by decide)⟩

/-! Behaviour of the sample clock. -/

/-- While armed, unpaused and within the buffer, `k` ticks advance the
cursor by exactly `k` and change no flag, no buffer field and no volume. -/
lemma ticks_progress (k : ℕ) :
    ∀ s : AudioState, s.is_playing = true → s.is_paused = false →
      s.sample_index + k ≤ s.buffer_size →
      (ticks k s).sample_index = s.sample_index + k ∧
        (ticks k s).is_playing = true ∧
        (ticks k s).is_paused = false ∧
        (ticks k s).buffer_size = s.buffer_size ∧
        (ticks k s).buffer = s.buffer ∧
        (ticks k s).volume = s.volume := by
  induction k with
  | zero =>
    intro s h1 h2 _
    exact ⟨rfl, h1, h2, rfl, rfl, rfl⟩
  | succ k ih =>
    intro s h1 h2 h3
    have hlt : s.sample_index < s.buffer_size := by omega
    have hstep : tim2_irq s =
        { s with sample_index := s.sample_index + 1,
                 duty := audio_duty (s.buffer.getD s.sample_index 0) s.volume } := by
      unfold tim2_irq
      rw [h1, h2]
      simp [hlt]
    have hp1 : (tim2_irq s).is_playing = true := by rw [hstep]; exact h1
    have hp2 : (tim2_irq s).is_paused = false := by rw [hstep]; exact h2
    have hp3 : (tim2_irq s).sample_index = s.sample_index + 1 := by rw [hstep]
    have hp4 : (tim2_irq s).buffer_size = s.buffer_size := by rw [hstep]
    have hp5 : (tim2_irq s).buffer = s.buffer := by rw [hstep]
    have hp6 : (tim2_irq s).volume = s.volume := by rw [hstep]
    obtain ⟨e1, e2, e3, e4, e5, e6⟩ := ih (tim2_irq s) hp1 hp2
      (by rw [hp3, hp4]; omega)
    rw [show ticks (k + 1) s = ticks k (tim2_irq s) from rfl]
    exact ⟨by rw [e1, hp3]; omega, e2, e3, by rw [e4, hp4],
      by rw [e5, hp5], by rw [e6, hp6]⟩

/-- The tick that observes `sample_index = buffer_size` only clears
`is_playing`. -/
lemma tim2_irq_at_end {s : AudioState} (h1 : s.is_playing = true)
    (h2 : s.is_paused = false) (h3 : ¬ s.sample_index < s.buffer_size) :
    tim2_irq s = { s with is_playing := false } := by
  unfold tim2_irq
  rw [h1, h2]
  simp [h3]

/-- C1 is false as stated: after `play([0], 1)` and exactly 1 tick the
state is still Playing (the Stopped transition happens only on the next
tick, which observes `cursor = length`). -/
theorem play_then_n_ticks_not_stopped :
    playbackState (ticks 1 (audio_play [0] 1 initAudioState)) ≠
      PlaybackState.Stopped := by
  have h1 : audio_play [0] 1 initAudioState =
      { buffer := [0], buffer_size := 1, sample_index := 0,
        is_playing := true, is_paused := false, volume := 70, duty := 10 } := by
    decide
  have h2 : tim2_irq (audio_play [0] 1 initAudioState) =
      { buffer := [0], buffer_size := 1, sample_index := 1,
        is_playing := true, is_paused := false, volume := 70,
        duty := audio_duty 0 70 } := by
    rw [h1]
    unfold tim2_irq
    simp
  rw [show ticks 1 (audio_play [0] 1 initAudioState) =
    tim2_irq (audio_play [0] 1 initAudioState) from rfl, h2]
  decide

/-- C1, amended.  `play(buf, N)` followed by exactly N ticks leaves the
cursor at N with PlaybackState still Playing; the (N+1)-th tick — the one
that observes `cursor = length` — transitions PlaybackState to Stopped and
leaves the cursor at N. -/
theorem play_then_ticks_completion (buf : List ℤ) (N : ℕ) (s0 : AudioState)
    (hN : 1 ≤ N) (hlen : buf.length = N) :
    audio_get_position (ticks N (audio_play buf N s0)) = N ∧
      playbackState (ticks N (audio_play buf N s0)) = PlaybackState.Playing ∧
      playbackState (ticks (N + 1) (audio_play buf N s0)) =
        PlaybackState.Stopped ∧
      audio_get_position (ticks (N + 1) (audio_play buf N s0)) = N := by
  have hplay : audio_play buf N s0 =
      { s0 with buffer := buf, buffer_size := N, sample_index := 0,
                is_playing := true, is_paused := false } := by
    unfold audio_play
    rw [if_neg (by omega)]
  have hrun := ticks_progress N (audio_play buf N s0)
    (by rw [hplay]) (by rw [hplay]) (by rw [hplay]; simp)
  rcases hrun with ⟨e1, e2, e3, e4, e5, e6⟩
  have hidx : (ticks N (audio_play buf N s0)).sample_index = N := by
    rw [e1, hplay]
    simp
  have hsize : (ticks N (audio_play buf N s0)).buffer_size = N := by
    rw [e4, hplay]
  have hps : playbackState (ticks N (audio_play buf N s0)) =
      PlaybackState.Playing := by
    unfold playbackState
    rw [e2, e3]
    rfl
  have hstep := tim2_irq_at_end e2 e3 (by omega)
  have hsucc : ticks (N + 1) (audio_play buf N s0) =
      tim2_irq (ticks N (audio_play buf N s0)) := by
    have haux : ∀ (k : ℕ) (s : AudioState), ticks (k + 1) s = tim2_irq (ticks k s) := by
      intro k
      induction k with
      | zero => intro s; rfl
      | succ k ih =>
        intro s
        rw [show ticks (k + 1 + 1) s = ticks (k + 1) (tim2_irq s) from rfl,
          ih (tim2_irq s)]
        rfl
    exact haux N _
  refine ⟨hidx, hps, ?_, ?_⟩
  · rw [hsucc, hstep]
    unfold playbackState
    simp
  · rw [hsucc, hstep]
    unfold audio_get_position
    simpa using hidx

/-- Witness for C1 (amended) at buf = [0, 0, 0], N = 3. -/
theorem play_then_ticks_completion_witness :
    1 ≤ 3 ∧ ([(0 : ℤ), 0, 0]).length = 3 ∧
      playbackState (ticks 4 (audio_play [0, 0, 0] 3 initAudioState)) =
        PlaybackState.Stopped :=
  ⟨by decide, by decide,
    (play_then_ticks_completion [0, 0, 0] 3 initAudioState (by decide)
      (by decide)).2.2.1⟩

/-! Splitting runs of ticks, for the pause/resume equivalence. -/

lemma ticks_add (a : ℕ) :
    ∀ (b : ℕ) (s : AudioState), ticks (a + b) s = ticks b (ticks a s) := by
  induction a with
  | zero =>
    intro b s
    rw [Nat.zero_add]
    rfl
  | succ a ih =>
    intro b s
    rw [show a + 1 + b = (a + b) + 1 by omega,
      show ticks ((a + b) + 1) s = ticks (a + b) (tim2_irq s) from rfl,
      ih b (tim2_irq s)]
    rfl

lemma ticksWrites_add (a : ℕ) :
    ∀ (b : ℕ) (s : AudioState),
      ticksWrites (a + b) s = ticksWrites a s ++ ticksWrites b (ticks a s) := by
  induction a with
  | zero =>
    intro b s
    rw [Nat.zero_add]
    rfl
  | succ a ih =>
    intro b s
    rw [show a + 1 + b = (a + b) + 1 by omega]
    rw [show ticksWrites ((a + b) + 1) s =
      tickWrites s ++ ticksWrites (a + b) (tim2_irq s) from rfl]
    rw [ih b (tim2_irq s)]
    rw [show ticksWrites (a + 1) s =
      tickWrites s ++ ticksWrites a (tim2_irq s) from rfl]
    rw [show ticks (a + 1) s = ticks a (tim2_irq s) from rfl]
    simp

/-- Pausing and immediately resuming an armed, unpaused back-end restores
the state exactly (the cursor is untouched). -/
lemma resume_pause_id {s : AudioState} (h1 : s.is_playing = true)
    (h2 : s.is_paused = false) : audio_resume (audio_pause s) = s := by
  cases s with
  | mk buffer buffer_size sample_index is_playing is_paused volume duty =>
    simp only at h1 h2
    subst h1
    subst h2
    simp [audio_pause, audio_resume]

/-- C8.  Claim: for a 1000-sample buffer and any k ≤ 1000, the run
`play(buf, 1000)`, k ticks, `pause()`, `resume()`, then the remaining
1000 − k ticks produces exactly the duty-write sequence of an
uninterrupted 1000-tick run.  Confirmed: `audio_pause`/`audio_resume` only
toggle `is_paused` and write nothing, so the interrupted run is literally
the uninterrupted one split at k. -/
theorem pause_resume_preserves_writes (buf : List ℤ) (s0 : AudioState)
    (k : ℕ) (_hlen : buf.length = 1000) (hk : k ≤ 1000) :
    ticksWrites k (audio_play buf 1000 s0) ++
        ticksWrites (1000 - k)
          (audio_resume (audio_pause (ticks k (audio_play buf 1000 s0)))) =
      ticksWrites 1000 (audio_play buf 1000 s0) := by
  have hplay : audio_play buf 1000 s0 =
      { s0 with buffer := buf, buffer_size := 1000, sample_index := 0,
                is_playing := true, is_paused := false } := by
    unfold audio_play
    rw [if_neg (by omega)]
  have hrun := ticks_progress k (audio_play buf 1000 s0)
    (by rw [hplay]) (by rw [hplay]) (by rw [hplay]; simp; omega)
  rcases hrun with ⟨_, e2, e3, _, _, _⟩
  rw [resume_pause_id e2 e3, ← ticksWrites_add,
    show k + (1000 - k) = 1000 by omega]

/-- Witness for C8 at buf = replicate 1000 0, k = 400. -/
theorem pause_resume_preserves_writes_witness :
    (List.replicate 1000 (0 : ℤ)).length = 1000 ∧ 400 ≤ 1000 ∧
      ticksWrites 400 (audio_play (List.replicate 1000 0) 1000 initAudioState) ++
          ticksWrites (1000 - 400)
            (audio_resume (audio_pause
              (ticks 400 (audio_play (List.replicate 1000 0) 1000 initAudioState)))) =
        ticksWrites 1000 (audio_play (List.replicate 1000 0) 1000 initAudioState) :=
  ⟨List.length_replicate 1000 0, by decide,
    pause_resume_preserves_writes (List.replicate 1000 0) initAudioState 400
      (List.length_replicate 1000 0) (by decide)⟩

set_option maxRecDepth 8000 in
/-- C4 is false as stated: after `play([32767], 1)` at volume 100 and two
ticks, the state is Stopped but the duty register still holds 20, the duty
of the last sample — the completion tick does not force it back to P/2. -/
theorem completion_leaves_duty_stale :
    playbackState
        (ticks 2 (audio_set_volume 100 (audio_play [32767] 1 initAudioState))) =
      PlaybackState.Stopped ∧
      (ticks 2 (audio_set_volume 100 (audio_play [32767] 1 initAudioState))).duty ≠
        PWM_PERIOD / 2 := by
  have h1 : audio_set_volume 100 (audio_play [32767] 1 initAudioState) =
      { buffer := [32767], buffer_size := 1, sample_index := 0,
        is_playing := true, is_paused := false, volume := 100, duty := 10 } := by
    decide
  have h2 : tim2_irq (audio_set_volume 100 (audio_play [32767] 1 initAudioState)) =
      { buffer := [32767], buffer_size := 1, sample_index := 1,
        is_playing := true, is_paused := false, volume := 100, duty := 20 } := by
    rw [h1]
    unfold tim2_irq
    simp [audio_duty_32767_100]
  have h3 : ticks 2 (audio_set_volume 100 (audio_play [32767] 1 initAudioState)) =
      { buffer := [32767], buffer_size := 1, sample_index := 1,
        is_playing := false, is_paused := false, volume := 100, duty := 20 } := by
    rw [show ticks 2 (audio_set_volume 100 (audio_play [32767] 1 initAudioState)) =
      tim2_irq (tim2_irq (audio_set_volume 100 (audio_play [32767] 1 initAudioState)))
      from rfl, h2]
    decide
  rw [h3]
  exact ⟨by decide, by decide⟩

/-- C4, amended.  The duty register holds exactly P/2 initially and after
every `stop()` (which also yields the Stopped state); but the tick that
observes `cursor = length` only clears the `is_playing` flag — a pure
flag write, no blocking call — and leaves the duty register at the last
sample's value rather than forcing it to P/2. -/
theorem silence_policy_actual (s : AudioState) :
    initAudioState.duty = PWM_PERIOD / 2 ∧
      (audio_stop s).duty = PWM_PERIOD / 2 ∧
      playbackState (audio_stop s) = PlaybackState.Stopped ∧
      (s.is_playing = true → s.is_paused = false →
        ¬ s.sample_index < s.buffer_size →
        tim2_irq s = { s with is_playing := false }) := by
  refine ⟨by decide, rfl, ?_, fun h1 h2 h3 => tim2_irq_at_end h1 h2 h3⟩
  unfold playbackState audio_stop
  simp

/-- Witness for C4 (amended) at a state whose cursor has reached its
buffer size. -/
theorem silence_policy_actual_witness :
    (audio_stop initAudioState).duty = PWM_PERIOD / 2 ∧
      tim2_irq { buffer := [3], buffer_size := 1, sample_index := 1,
                 is_playing := true, is_paused := false, volume := 70,
                 duty := 17 } =
        { buffer := [(3 : ℤ)], buffer_size := 1, sample_index := 1,
          is_playing := false, is_paused := false, volume := 70, duty := 17 } :=
  ⟨(silence_policy_actual initAudioState).2.1,
    (silence_policy_actual
      { buffer := [3], buffer_size := 1, sample_index := 1,
        is_playing := true, is_paused := false, volume := 70,
        duty := 17 }).2.2.2 rfl rfl (by decide)⟩

/-! Foreground controller: pause, resume, volume, position. -/

/-- C5 is false as stated: from the Paused state (both flags set),
`player_pause` succeeds with PLAYER_OK — idempotently, leaving the state
unchanged — instead of returning an InvalidState error. -/
theorem pause_from_paused_succeeds :
    player_pause { is_playing := true, is_paused := true, volume := 70,
                   audio_pos := 0 } =
      (PlayerStatus.PLAYER_OK,
        { is_playing := true, is_paused := true, volume := 70,
          audio_pos := 0 }) := by
  decide

/-- C5, amended.  `player_pause` is rejected (PLAYER_ERROR, state, cursor
and buffer untouched) exactly when `is_playing` is false (Stopped); from
Paused it succeeds as a no-op.  `player_resume` is rejected with
PLAYER_ERROR and no state change exactly when `is_paused` is false
(Playing or Stopped). -/
theorem pause_resume_gating (s : PlayerState) :
    (s.is_playing = false → player_pause s = (PlayerStatus.PLAYER_ERROR, s)) ∧
      (s.is_playing = true → s.is_paused = true →
        player_pause s = (PlayerStatus.PLAYER_OK, s)) ∧
      (s.is_paused = false → player_resume s = (PlayerStatus.PLAYER_ERROR, s)) ∧
      (s.is_paused = true →
        player_resume s = (PlayerStatus.PLAYER_OK, { s with is_paused := false })) := by
  cases s with
  | mk is_playing is_paused volume audio_pos =>
    refine ⟨fun h1 => ?_, fun h1 h2 => ?_, fun h1 => ?_, fun h1 => ?_⟩ <;>
      subst_vars <;> simp [player_pause, player_resume]

/-- Witness for C5 (amended) at the Stopped and Paused states. -/
theorem pause_resume_gating_witness :
    player_pause initPlayerState = (PlayerStatus.PLAYER_ERROR, initPlayerState) ∧
      player_pause { is_playing := true, is_paused := true, volume := 50,
                     audio_pos := 7 } =
        (PlayerStatus.PLAYER_OK,
          { is_playing := true, is_paused := true, volume := 50,
            audio_pos := 7 }) ∧
      player_resume initPlayerState = (PlayerStatus.PLAYER_ERROR, initPlayerState) :=
  ⟨(pause_resume_gating initPlayerState).1 rfl,
    (pause_resume_gating _).2.1 rfl rfl,
    (pause_resume_gating initPlayerState).2.2.1 rfl⟩

/-- C6 is false as stated: `player_set_volume 150` does not succeed — it
returns PLAYER_ERROR and leaves the state unchanged, instead of behaving
like `player_set_volume 100`. -/
theorem player_set_volume_rejects_150 :
    player_set_volume 150 initPlayerState =
      (PlayerStatus.PLAYER_ERROR, initPlayerState) ∧
      player_set_volume 150 initPlayerState ≠ player_set_volume 100 initPlayerState := by
  decide

/-- C6, amended.  Only the PWM back-end clamps: for every v in (100, 255],
`audio_set_volume v` leaves the system exactly as `audio_set_volume 100`
(volume 100) and always succeeds (it returns void), while the foreground
`player_set_volume` rejects the same argument with PLAYER_ERROR and
changes nothing. -/
theorem set_volume_clamp_vs_reject (v : ℕ) (s : AudioState) (p : PlayerState)
    (hv : 100 < v) (_hv2 : v < 256) :
    audio_set_volume v s = audio_set_volume 100 s ∧
      (audio_set_volume v s).volume = 100 ∧
      player_set_volume v p = (PlayerStatus.PLAYER_ERROR, p) := by
  unfold audio_set_volume player_set_volume
  rw [if_pos hv, if_neg (by omega), if_pos hv]
  exact ⟨rfl, rfl, rfl⟩

/-- Witness for C6 (amended) at v = 150. -/
theorem set_volume_clamp_vs_reject_witness :
    100 < 150 ∧ 150 < 256 ∧
      audio_set_volume 150 initAudioState = audio_set_volume 100 initAudioState ∧
      player_set_volume 150 initPlayerState =
        (PlayerStatus.PLAYER_ERROR, initPlayerState) :=
  ⟨by decide, by decide,
    (set_volume_clamp_vs_reject 150 initAudioState initPlayerState
      (by decide) (by decide)).1,
    (set_volume_clamp_vs_reject 150 initAudioState initPlayerState
      (by decide) (by decide)).2.2⟩

/-- C9 is false as stated: with the byte cursor at 176400,
`player_get_position` returns 1 (whole seconds), which is neither the
cursor nor the sample index derived from it. -/
theorem player_get_position_not_cursor :
    player_get_position { is_playing := false, is_paused := false,
                          volume := 70, audio_pos := 176400 } ≠ 176400 ∧
      player_get_position { is_playing := false, is_paused := false,
                            volume := 70, audio_pos := 176400 } ≠ 176400 / 4 := by
  decide

/-- C9, amended.  The PWM back-end's `audio_get_position` does return the
cursor (the next-sample index) unchanged in every state; the foreground
`player_get_position` instead returns a derived quantity in other units:
elapsed whole seconds, `audio_pos / (4 * 44100)`. -/
theorem get_position_units (a : AudioState) (p : PlayerState) :
    audio_get_position a = a.sample_index ∧
      player_get_position p = p.audio_pos / 176400 := by
  refine ⟨rfl, ?_⟩
  unfold player_get_position
  rw [Nat.div_div_eq_div_mul]

/-! Codec control channel. -/

/-- C10.  Claim: `codec_set_volume v` writes `0xC0 ∣ (min(v,100)·127/100)`
to both the left and the right output-volume registers; the unmute bits
(0xC0) are set even for v = 0, so volume zero leaves the codec unmuted at
gain step 0.  Confirmed against codec.c lines 274-291. -/
theorem codec_set_volume_writes (v : ℕ) (_hv : v < 256) :
    codec_set_volume v =
      (min v 100,
        [(WM8994_LEFT_OUTPUT_VOLUME, 0xC0 ||| (min v 100 * 127 / 100)),
         (WM8994_RIGHT_OUTPUT_VOLUME, 0xC0 ||| (min v 100 * 127 / 100))]) ∧
      (0xC0 ||| (min v 100 * 127 / 100)) &&& 0xC0 = 0xC0 ∧
      (v = 0 →
        codec_set_volume v =
          (0, [(WM8994_LEFT_OUTPUT_VOLUME, 0xC0),
               (WM8994_RIGHT_OUTPUT_VOLUME, 0xC0)])) := by
  have hmin : (if v > 100 then 100 else v) = min v 100 := by
    split_ifs with h
    · omega
    · omega
  refine ⟨?_, ?_, ?_⟩
  · unfold codec_set_volume
    rw [hmin]
  · apply Nat.eq_of_testBit_eq
    intro i
    rw [Nat.testBit_and, Nat.testBit_or]
    cases Nat.testBit 0xC0 i <;> simp
  · intro h0
    subst h0
    decide

/-- Witness for C10 at v = 0. -/
theorem codec_set_volume_writes_witness :
    (0 : ℕ) < 256 ∧
      codec_set_volume 0 =
        (0, [(WM8994_LEFT_OUTPUT_VOLUME, 0xC0),
             (WM8994_RIGHT_OUTPUT_VOLUME, 0xC0)]) :=
  ⟨by decide, (codec_set_volume_writes 0 (by decide)).2.2 rfl⟩

/-! I2C control channel: bounded waits whose results are discarded. -/

/-- Each spin loop performs at most `fuel` reads beyond its start: the wait
is bounded. -/
lemma i2c_wait_loop_le (sr1 : ℕ → ℕ) (flag : ℕ) :
    ∀ (fuel pos : ℕ), i2c_wait_loop sr1 flag pos fuel ≤ pos + fuel := by
  intro fuel
  induction fuel with
  | zero =>
    intro pos
    exact Nat.le_refl pos
  | succ fuel ih =>
    intro pos
    unfold i2c_wait_loop
    split_ifs
    · omega
    · have := ih (pos + 1)
      omega

/-- On a bus whose status register never shows the awaited flag, the wait
spins its full budget and reports failure (status 0). -/
lemma i2c_wait_event_all_zero (flag pos : ℕ) :
    (i2c_wait_event (fun _ => 0) flag pos).1 = 0 := by
  unfold i2c_wait_event
  simp

/-- Argument-valid `i2c_write` returns 0 (success) no matter what the bus
does: every wait status is discarded. -/
lemma i2c_write_always_ok (sr1 : ℕ → ℕ) (bus : ℕ) (data : List ℕ)
    (hd : data ≠ []) (hb1 : 1 ≤ bus) (hb3 : bus ≤ 3) :
    i2c_write sr1 bus data = 0 := by
  unfold i2c_write
  rw [if_neg]
  push_neg
  exact ⟨hd, by omega, by omega⟩

/-- C7: the waits are bounded, but a timeout is swallowed.  On a bus whose
SR1 never shows any handshake bit, every `i2c_wait_event` spin stays within
its `I2C_TIMEOUT_MAX + 1` read budget and reports timeout (0); yet
`i2c_write` discards those statuses and returns 0, so
`codec_write_register` reports CODEC_OK — never CODEC_TIMEOUT. -/
theorem codec_timeout_swallowed :
    (∀ (sr1 : ℕ → ℕ) (flag pos : ℕ),
        i2c_wait_loop sr1 flag pos (I2C_TIMEOUT_MAX + 1) ≤
          pos + I2C_TIMEOUT_MAX + 1) ∧
      (i2c_wait_event (fun _ => 0) I2C_SR1_SB 0).1 = 0 ∧
      i2c_write (fun _ => 0) 1 [0x1C &&& 0xFF, (0xC0 >>> 8) &&& 0xFF,
        0xC0 &&& 0xFF] = 0 ∧
      codec_write_register (fun _ => 0) 0x1C 0xC0 = CodecStatus.CODEC_OK := by
  refine ⟨?_, i2c_wait_event_all_zero I2C_SR1_SB 0, ?_, ?_⟩
  · intro sr1 flag pos
    have := i2c_wait_loop_le sr1 flag (I2C_TIMEOUT_MAX + 1) pos
    omega
  · exact i2c_write_always_ok _ 1 _ (by decide) (by decide) (by decide)
  · unfold codec_write_register
    rw [if_neg]
    rw [i2c_write_always_ok _ 1 _ (by decide) (by decide) (by decide)]
    simp

end Walkman
